import Mathlib

/-!
Shallow embedding of `runcached.go` (package main of blackdaemon/runcached,
Go implementation) and proofs about its specification.

Conventions:
* Go `float64` durations are modelled as rationals (`ℚ`).
* Go machine integers that can overflow are modelled as `Nat` with explicit
  `% 2 ^ 32` (the MD5 word arithmetic).
* The filesystem is modelled as a partial map from path strings to file
  entries; `os.Create`/`WriteString`/`os.Remove` become explicit updates.
* External collaborators (`os.TempDir`, the PID-liveness probe, the child
  process spawned through `bash -c`) are parameters of the embedding.
-/

namespace Runcached

/-! Section: Constants (runcached.go lines 33-38) -/

def defaultCacheTimeoutSec : ℚ := 20

def maxWaitPrevSec : Nat := 5

def minRandSec : Nat := 0

def maxRandSec : Nat := 0

/-! Section: MD5 (Go `crypto/md5`, used by `GenerateCommandHash`)

Faithful byte-level MD5 over `Nat`, with explicit `% 2 ^ 32` where the Go
library relies on 32-bit overflow. -/

def pow32 : Nat := 4294967296

def mask32 : Nat := 4294967295

def rotl32 (x s : Nat) : Nat :=
  ((x <<< s) ||| (x >>> (32 - s))) % pow32

/-- The 64 MD5 sine-derived round constants. -/
def md5K : List Nat :=
  [0xd76aa478, 0xe8c7b756, 0x242070db, 0xc1bdceee,
   0xf57c0faf, 0x4787c62a, 0xa8304613, 0xfd469501,
   0x698098d8, 0x8b44f7af, 0xffff5bb1, 0x895cd7be,
   0x6b901122, 0xfd987193, 0xa679438e, 0x49b40821,
   0xf61e2562, 0xc040b340, 0x265e5a51, 0xe9b6c7aa,
   0xd62f105d, 0x02441453, 0xd8a1e681, 0xe7d3fbc8,
   0x21e1cde6, 0xc33707d6, 0xf4d50d87, 0x455a14ed,
   0xa9e3e905, 0xfcefa3f8, 0x676f02d9, 0x8d2a4c8a,
   0xfffa3942, 0x8771f681, 0x6d9d6122, 0xfde5380c,
   0xa4beea44, 0x4bdecfa9, 0xf6bb4b60, 0xbebfbc70,
   0x289b7ec6, 0xeaa127fa, 0xd4ef3085, 0x04881d05,
   0xd9d4d039, 0xe6db99e5, 0x1fa27cf8, 0xc4ac5665,
   0xf4292244, 0x432aff97, 0xab9423a7, 0xfc93a039,
   0x655b59c3, 0x8f0ccc92, 0xffeff47d, 0x85845dd1,
   0x6fa87e4f, 0xfe2ce6e0, 0xa3014314, 0x4e0811a1,
   0xf7537e82, 0xbd3af235, 0x2ad7d2bb, 0xeb86d391]

/-- The 64 MD5 per-round left-rotation amounts. -/
def md5S : List Nat :=
  [7, 12, 17, 22, 7, 12, 17, 22, 7, 12, 17, 22, 7, 12, 17, 22,
   5, 9, 14, 20, 5, 9, 14, 20, 5, 9, 14, 20, 5, 9, 14, 20,
   4, 11, 16, 23, 4, 11, 16, 23, 4, 11, 16, 23, 4, 11, 16, 23,
   6, 10, 15, 21, 6, 10, 15, 21, 6, 10, 15, 21, 6, 10, 15, 21]

def md5F (i b c d : Nat) : Nat :=
  if i < 16 then (b &&& c) ||| ((b ^^^ mask32) &&& d)
  else if i < 32 then (d &&& b) ||| ((d ^^^ mask32) &&& c)
  else if i < 48 then b ^^^ c ^^^ d
  else c ^^^ (b ||| (d ^^^ mask32))

def md5G (i : Nat) : Nat :=
  if i < 16 then i
  else if i < 32 then (5 * i + 1) % 16
  else if i < 48 then (3 * i + 5) % 16
  else (7 * i) % 16

structure MD5State where
  a : Nat
  b : Nat
  c : Nat
  d : Nat
deriving DecidableEq

def md5Init : MD5State := ⟨0x67452301, 0xefcdab89, 0x98badcfe, 0x10325476⟩

/-- Little-endian byte list of width `k` for `n`. -/
def toLE : Nat → Nat → List Nat
  | 0, _ => []
  | k + 1, n => (n % 256) :: toLE k (n / 256)

/-- Read a little-endian 32-bit word from a byte list. -/
def leWord (bytes : List Nat) : Nat :=
  bytes.foldr (fun b acc => acc * 256 + b) 0

def chunkWords (c : List Nat) : List Nat :=
  (List.range 16).map (fun i => leWord ((c.drop (4 * i)).take 4))

def md5Round (M : List Nat) (st : MD5State) (i : Nat) : MD5State :=
  let f := (md5F i st.b st.c st.d + st.a + md5K.getD i 0 + M.getD (md5G i) 0) % pow32
  ⟨st.d, (st.b + rotl32 f (md5S.getD i 0)) % pow32, st.b, st.c⟩

def md5Chunk (st : MD5State) (chunk : List Nat) : MD5State :=
  let M := chunkWords chunk
  let r := (List.range 64).foldl (md5Round M) st
  ⟨(st.a + r.a) % pow32, (st.b + r.b) % pow32, (st.c + r.c) % pow32, (st.d + r.d) % pow32⟩

/-- MD5 message padding: append `0x80`, zeros to 56 mod 64, then the 64-bit
little-endian bit length. -/
def md5Pad (msg : List Nat) : List Nat :=
  let padZeros := (55 + 64 - msg.length % 64) % 64
  msg ++ 0x80 :: (List.replicate padZeros 0 ++ toLE 8 ((msg.length * 8) % 2 ^ 64))

def chunksAux : Nat → List Nat → List (List Nat)
  | 0, _ => []
  | _, [] => []
  | fuel + 1, l => l.take 64 :: chunksAux fuel (l.drop 64)

def chunks (l : List Nat) : List (List Nat) := chunksAux l.length l

def md5Bytes (msg : List Nat) : List Nat :=
  let f := (chunks (md5Pad msg)).foldl md5Chunk md5Init
  toLE 4 f.a ++ toLE 4 f.b ++ toLE 4 f.c ++ toLE 4 f.d

def hexDigit (n : Nat) : Char :=
  if n < 10 then Char.ofNat (48 + n) else Char.ofNat (87 + n)

/-- Go `hex.EncodeToString` (lowercase). -/
def hexEncode (bytes : List Nat) : String :=
  String.mk ((bytes.map (fun b => [hexDigit (b / 16), hexDigit (b % 16)])).flatten)

def utf8EncodeChar (c : Char) : List Nat :=
  let n := c.toNat
  if n < 0x80 then [n]
  else if n < 0x800 then [0xC0 ||| (n >>> 6), 0x80 ||| (n &&& 0x3F)]
  else if n < 0x10000 then
    [0xE0 ||| (n >>> 12), 0x80 ||| ((n >>> 6) &&& 0x3F), 0x80 ||| (n &&& 0x3F)]
  else
    [0xF0 ||| (n >>> 18), 0x80 ||| ((n >>> 12) &&& 0x3F),
     0x80 ||| ((n >>> 6) &&& 0x3F), 0x80 ||| (n &&& 0x3F)]

/-- Go `[]byte(s)`: the UTF-8 bytes of a string. -/
def strBytes (s : String) : List Nat :=
  (s.data.map utf8EncodeChar).flatten

/-- The exact string fed to the MD5 hasher by `GenerateCommandHash`
(runcached.go line 60): `strings.Join(command, " ")`. -/
def hashInput (command : List String) : String :=
  String.intercalate " " command

/-- runcached.go lines 58-62. -/
def GenerateCommandHash (command : List String) : String :=
  hexEncode (md5Bytes (strBytes (hashInput command)))

/-! Section: Filesystem model

`os.Create` truncates/creates, `WriteString` then fills the content, and the
two together are modelled as a single `FS.set` with the final content;
`os.Remove` is `FS.remove`.  `metaReadable` is false for a file whose
metadata `os.Stat` cannot read (IsValid treats any stat error as invalid). -/

structure FileEntry where
  content : String
  modTime : ℚ
  metaReadable : Bool
deriving DecidableEq

def FS : Type := String → Option FileEntry

def FS.set (fs : FS) (p : String) (e : FileEntry) : FS :=
  fun q => if q = p then some e else fs q

def FS.remove (fs : FS) (p : String) : FS :=
  fun q => if q = p then none else fs q

def emptyFS : FS := fun _ => none

/-- `os.Stat` followed by `.ModTime()`: `none` when the stat call errors
(file absent or metadata unreadable). -/
def statMod (fs : FS) (p : String) : Option ℚ :=
  match fs p with
  | none => none
  | some e => if e.metaReadable then some e.modTime else none

/-! Section: CommandCache (runcached.go lines 43-90)

`getCacheDir` returns `os.TempDir()`, an external input; it is threaded in
as the `cacheDir` parameter.  `filepath.Join` for a clean directory and a
plain file name is directory, separator, name. -/

def filepathJoin (dir name : String) : String := dir ++ "/" ++ name

structure CommandCache where
  Command : List String
  CacheTimeout : ℚ
  CacheDir : String
  CommandHash : String
  OutputCache : String
  ExitFile : String
  CmdFile : String

/-- runcached.go lines 65-77. -/
def NewCommandCache (cacheDir : String) (command : List String) (cacheTimeout : ℚ) :
    CommandCache :=
  let commandHash := GenerateCommandHash command
  { Command := command
    CacheTimeout := cacheTimeout
    CacheDir := cacheDir
    CommandHash := commandHash
    OutputCache := filepathJoin cacheDir (commandHash ++ ".data")
    ExitFile := filepathJoin cacheDir (commandHash ++ ".exit")
    CmdFile := filepathJoin cacheDir (commandHash ++ ".cmd") }

/-- runcached.go lines 80-86: any `os.Stat` error gives `false`, otherwise
`time.Since(modTime).Seconds() <= CacheTimeout`. -/
def IsValid (cc : CommandCache) (fs : FS) (now : ℚ) : Bool :=
  match statMod fs cc.OutputCache with
  | none => false
  | some m => decide (now - m ≤ cc.CacheTimeout)

/-- runcached.go lines 88-90: removes only the output blob. -/
def Invalidate (cc : CommandCache) (fs : FS) : FS :=
  fs.remove cc.OutputCache

/-! Section: Argument quoting (runcached.go lines 133-187, 430-444) -/

def squote : Char := Char.ofNat 39

def dquote : Char := Char.ofNat 34

def bslash : Char := Char.ofNat 92

/-- Go `unicode.IsSpace` on the Latin-1 range. -/
def unicodeIsSpace (c : Char) : Bool :=
  c.toNat = 32 || c.toNat = 9 || c.toNat = 10 || c.toNat = 11 ||
  c.toNat = 12 || c.toNat = 13 || c.toNat = 0x85 || c.toNat = 0xA0

/-- The loop body of `CustomParse` (runcached.go lines 139-160) plus the
final-token flush and unclosed-quote check (lines 162-171). -/
def customParseAux (inQuotes : Bool) (quoteChar : Char) (token : List Char)
    (acc : List (List Char)) : List Char → Except Char (List (List Char))
  | [] =>
    let acc := if token.isEmpty then acc else acc ++ [token]
    if inQuotes then .error quoteChar else .ok acc
  | r :: rest =>
    if inQuotes then
      customParseAux (if r = quoteChar then false else true) quoteChar (token ++ [r]) acc rest
    else if r = dquote || r = squote then
      customParseAux true r (token ++ [r]) acc rest
    else if unicodeIsSpace r then
      if token.isEmpty then customParseAux false quoteChar [] acc rest
      else customParseAux false quoteChar [] (acc ++ [token]) rest
    else
      customParseAux false quoteChar (token ++ [r]) acc rest

/-- runcached.go lines 133-172.  On an unclosed quote the Go code returns
`fmt.Errorf("unclosed quote: %q", quoteChar)`; the error value here carries
the quote character. -/
def CustomParse (input : String) : Except Char (List String) :=
  (customParseAux false (Char.ofNat 0) [] [] input.data).map (fun l => l.map String.mk)

/-- Go `strings.Replace(s, old, new, -1)` for a single-character pattern
(the only shape used, at lines 185, 434 and 436). -/
def goReplaceChar (old : Char) (new : List Char) (s : String) : String :=
  String.mk ((s.data.map (fun c => if c = old then new else [c])).flatten)

/-- runcached.go lines 174-187.  `log.Fatal` on a parse error is modelled as
the `.error` branch (the caller translates it to a fatal process exit that
skips deferred cleanup). -/
def ConstructBashCommand (args : List String) : Except Char String :=
  match CustomParse (String.intercalate " " args) with
  | .error e => .error e
  | .ok escapedArgs =>
    .ok (goReplaceChar dquote [bslash, dquote] (String.intercalate " " escapedArgs))

/-- runcached.go lines 430-444. -/
def PreprocessArguments (args : List String) : List String :=
  args.map (fun arg =>
    let arg := goReplaceChar bslash [bslash, bslash] arg
    let arg := goReplaceChar dquote [bslash, dquote] arg
    if arg.data.length ≥ 2 && arg.data.head? = some squote &&
        arg.data.getLast? = some squote then
      String.mk ([bslash, squote] ++ (arg.data.drop 1).dropLast ++ [bslash, squote])
    else arg)

/-! Section: POSIX shell tokenization

Modelled from the spec: §6 Process boundary — "the core shells out to a
POSIX-compatible command interpreter to execute the target command, relying
on that interpreter's quoting/tokenization rules".  The interpreter itself
is not repository code; this is the POSIX word-recognition of the single
line handed to `bash -c`: unquoted backslash escapes the next character,
single quotes preserve everything, and inside double quotes a backslash is
special only before dollar, backtick, double quote or backslash. -/

def dollar : Char := Char.ofNat 36

def backquote : Char := Char.ofNat 96

inductive ShMode
  | normal
  | single
  | double
deriving DecidableEq

def shFlush (cur : Option (List Char)) (acc : List (List Char)) : List (List Char) :=
  match cur with
  | none => acc
  | some t => acc ++ [t]

def shPush (cur : Option (List Char)) (c : Char) : Option (List Char) :=
  some (cur.getD [] ++ [c])

def bashTokenizeAux (fuel : Nat) (mode : ShMode) (cur : Option (List Char))
    (acc : List (List Char)) (l : List Char) : Option (List (List Char)) :=
  match l with
  | [] =>
    match mode with
    | .normal => some (shFlush cur acc)
    | _ => none
  | c :: rest =>
    match fuel with
    | 0 => none
    | fuel + 1 =>
      match mode with
      | .normal =>
        if c = bslash then
          match rest with
          | [] => some (shFlush (shPush cur c) acc)
          | d :: rest2 => bashTokenizeAux fuel .normal (shPush cur d) acc rest2
        else if c = squote then bashTokenizeAux fuel .single (some (cur.getD [])) acc rest
        else if c = dquote then bashTokenizeAux fuel .double (some (cur.getD [])) acc rest
        else if c = ' ' || c.toNat = 9 then
          bashTokenizeAux fuel .normal none (shFlush cur acc) rest
        else bashTokenizeAux fuel .normal (shPush cur c) acc rest
      | .single =>
        if c = squote then bashTokenizeAux fuel .normal cur acc rest
        else bashTokenizeAux fuel .single (shPush cur c) acc rest
      | .double =>
        if c = bslash then
          match rest with
          | [] => none
          | d :: rest2 =>
            if d = dollar || d = backquote || d = dquote || d = bslash then
              bashTokenizeAux fuel .double (shPush cur d) acc rest2
            else bashTokenizeAux fuel .double (shPush (shPush cur c) d) acc rest2
        else if c = dquote then bashTokenizeAux fuel .normal cur acc rest
        else bashTokenizeAux fuel .double (shPush cur c) acc rest

/-- Modelled from the spec (§6 Process boundary): the argument vector the
POSIX interpreter derives from one command line; `none` on an unclosed
quote.  The fuel (one unit per consumed character) makes the recursion
structural; `l.length` units always suffice. -/
def bashTokenize (line : String) : Option (List String) :=
  (bashTokenizeAux line.data.length .normal none [] line.data).map (fun l => l.map String.mk)

/-! Section: Go stdlib number/string helpers

`strconv.Itoa`, `strconv.Atoi` and `strings.TrimSpace` modelled at the
character level (decimal digits, optional sign; overflow cannot occur since
the embedded integers are unbounded). -/

def digitVal (c : Char) : Option Nat :=
  if 48 ≤ c.toNat && c.toNat ≤ 57 then some (c.toNat - 48) else none

def atoiStep (acc : Option Nat) (c : Char) : Option Nat :=
  match acc, digitVal c with
  | some n, some d => some (n * 10 + d)
  | _, _ => none

def parseNatDigits (l : List Char) : Option Nat :=
  if l.isEmpty then none else l.foldl atoiStep (some 0)

/-- Go `strconv.Atoi`: optional sign, then at least one decimal digit. -/
def goAtoi (s : String) : Option Int :=
  match s.data with
  | [] => none
  | c :: rest =>
    if c = '-' then (parseNatDigits rest).map (fun n => -(n : Int))
    else if c = '+' then (parseNatDigits rest).map (fun n => (n : Int))
    else (parseNatDigits (c :: rest)).map (fun n => (n : Int))

/-- Go `strings.TrimSpace`. -/
def trimSpace (s : String) : String :=
  String.mk (((s.data.dropWhile (fun c => unicodeIsSpace c)).reverse.dropWhile
    (fun c => unicodeIsSpace c)).reverse)

def itoaAux : Nat → Nat → List Char
  | 0, _ => []
  | fuel + 1, n =>
    if n < 10 then [Char.ofNat (48 + n)]
    else itoaAux fuel (n / 10) ++ [Char.ofNat (48 + n % 10)]

def itoaNat (n : Nat) : List Char := itoaAux (n + 1) n

/-- Go `strconv.Itoa`. -/
def goItoa (n : Int) : String :=
  if n < 0 then String.mk (Char.ofNat 45 :: itoaNat n.natAbs)
  else String.mk (itoaNat n.toNat)

/-! Section: Execution engine (runcached.go lines 189-266)

The spawned `bash -i -c <line>` child is an external process; its behavior
(combined command line's stdout bytes, stderr bytes, and termination) is a
parameter.  `cmd.Stderr = os.Stderr` wires the child's stderr straight to
the caller's stderr; only the stdout pipe is teed into the cache file. -/

inductive ChildOutcome
  | exited (code : Int)
  | startErr
  | waitOtherErr
deriving DecidableEq

structure ChildBehavior where
  out : String
  errOut : String
  outcome : ChildOutcome
deriving DecidableEq

structure ExecEffects where
  callerStdout : String
  callerStderr : String
deriving DecidableEq

inductive ExecResult
  | fatal (fs : FS)
  | normal (code : Int) (fs : FS) (eff : ExecEffects)

def ExecResult.fsOf : ExecResult → FS
  | .fatal fs => fs
  | .normal _ fs _ => fs

def ExecResult.codeOf : ExecResult → Option Int
  | .fatal _ => none
  | .normal c _ _ => some c

def ExecResult.effOf : ExecResult → ExecEffects
  | .fatal _ => ⟨"", ""⟩
  | .normal _ _ eff => eff

/-- runcached.go lines 189-266.  Order of operations preserved from the
source: construct the line (a parse failure is a fatal `log.Fatal` exit),
create/truncate the output cache file, start the child, tee its stdout to
the caller's stdout and the cache file, wait; only when `cmd.Wait` yields an
`exec.ExitError` (non-zero exit) is the exit file created and the code
written, after the copying goroutine has drained (`wg.Wait`).  A zero exit
returns 0 without touching the exit file; a non-`ExitError` wait failure
returns 1. -/
def ExecuteCommand (child : ChildBehavior) (now : ℚ) (command : List String)
    (cc : CommandCache) (fs : FS) : ExecResult :=
  match ConstructBashCommand command with
  | .error _ => .fatal fs
  | .ok _ =>
    let fs1 := fs.set cc.OutputCache ⟨"", now, true⟩
    match child.outcome with
    | .startErr => .normal 1 fs1 ⟨"", ""⟩
    | .waitOtherErr =>
      .normal 1 (fs1.set cc.OutputCache ⟨child.out, now, true⟩) ⟨child.out, child.errOut⟩
    | .exited n =>
      let fs2 := fs1.set cc.OutputCache ⟨child.out, now, true⟩
      if n = 0 then .normal 0 fs2 ⟨child.out, child.errOut⟩
      else .normal n (fs2.set cc.ExitFile ⟨goItoa n, now, true⟩) ⟨child.out, child.errOut⟩

/-! Section: Guard lock (runcached.go lines 268-350) -/

/-- runcached.go lines 268-278: `ioutil.ReadFile` error (absence) or
`strconv.Atoi(strings.TrimSpace(data))` failure give -1. -/
def getPidFromFile (contents : Option String) : Int :=
  match contents with
  | none => -1
  | some s =>
    match goAtoi (trimSpace s) with
    | none => -1
    | some n => n

inductive WaitResult
  | cleared (polls : Nat)
  | removedBad (polls : Nat)
  | timeout
deriving DecidableEq

def WaitResult.acquired : WaitResult → Bool
  | .cleared _ => true
  | _ => false

def WaitResult.polls (waitTimeSec : Nat) : WaitResult → Nat
  | .cleared i => i
  | .removedBad i => i
  | .timeout => waitTimeSec

/-- Loop body of `waitForPreviousCommand` (runcached.go lines 302-321).
`obs i` is the lock file's content observed at poll `i` (`none` = absent:
`os.Stat` reports not-exist); `running` is the PID-liveness probe
(`isProcessRunning`).  `cleared` returns true from the Go function;
`removedBad` covers both the unreadable-PID and the stale-PID branches,
which remove the lock file and return false; exhausting the budget returns
false without touching the file. -/
def waitLoop (obs : Nat → Option String) (running : Int → Bool) (i : Nat) :
    Nat → WaitResult
  | 0 => .timeout
  | fuel + 1 =>
    match obs i with
    | none => .cleared i
    | some s =>
      let pid := getPidFromFile (some s)
      if pid = -1 then .removedBad i
      else if !running pid then .removedBad i
      else waitLoop obs running (i + 1) fuel

def waitForPreviousCommand (obs : Nat → Option String) (running : Int → Bool)
    (waitTimeSec : Nat) : WaitResult :=
  waitLoop obs running 0 waitTimeSec

/-- External inputs of one invocation: the lock observations, the liveness
probe, this process's PID, the clock, and the child's behavior. -/
structure World where
  obs : Nat → Option String
  running : Int → Bool
  myPid : Nat
  now : ℚ
  child : ChildBehavior

/-- runcached.go lines 323-350.  `maxRandSec - minRandSec = 0`, so the
random pre-sleep is skipped.  Returns the lock path (Go: non-empty string)
on success together with the updated filesystem. -/
def CreatePidFile (cacheDir : String) (w : World) (command : List String)
    (fs : FS) : Option String × FS :=
  let pidFile := filepathJoin cacheDir (GenerateCommandHash command ++ ".pid")
  match waitForPreviousCommand w.obs w.running maxWaitPrevSec with
  | .cleared _ => (some pidFile, fs.set pidFile ⟨goItoa w.myPid, w.now, true⟩)
  | .removedBad _ => (none, fs.remove pidFile)
  | .timeout => (none, fs)

/-! Section: Orchestrator (runcached.go lines 352-405) -/

/-- runcached.go lines 369-375. -/
def readFileOrDefault (fs : FS) (p : String) (defaultValue : String) : String :=
  match fs p with
  | none => defaultValue
  | some e => e.content

/-- Replay exit code: `strconv.Atoi` with its error ignored, which leaves
the zero value (runcached.go line 391). -/
def atoiOrZero (s : String) : Int :=
  (goAtoi s).getD 0

structure RunEffects where
  acquired : Bool
  executed : Bool
  timeoutMsg : Bool
  stdoutOut : String
deriving DecidableEq

inductive RunResult
  | fatal (fs : FS) (eff : RunEffects)
  | normal (code : Int) (fs : FS) (eff : RunEffects)

def RunResult.fsOf : RunResult → FS
  | .fatal fs _ => fs
  | .normal _ fs _ => fs

def RunResult.codeOf : RunResult → Option Int
  | .fatal _ _ => none
  | .normal c _ _ => some c

def RunResult.effOf : RunResult → RunEffects
  | .fatal _ eff => eff
  | .normal _ _ eff => eff

def RunResult.isFatal : RunResult → Bool
  | .fatal _ _ => true
  | .normal _ _ _ => false

/-- runcached.go lines 377-405.  A failed `CreatePidFile` prints "Timeout
waiting for previous command to finish" and returns 2.  Otherwise the pid
file's removal is deferred: it runs when the function returns normally, but
not on the `log.Fatal` path inside `ConstructBashCommand` (`os.Exit` skips
deferred calls).  On a cache hit the blob is streamed to stdout and the
recorded exit code (default "0", `Atoi` errors ignored) is returned; on a
miss the command is executed and, when the code is non-zero and
cache-on-error is off, the just-written entry is invalidated before the
deferred removal runs.  `cacheOnAbort` is accepted and unused, as in the
source. -/
def RunCached (cacheDir : String) (w : World) (command : List String)
    (cacheTimeout : ℚ) (cacheOnError : Bool) (cacheOnAbort : Bool) (fs : FS) :
    RunResult :=
  match CreatePidFile cacheDir w command fs with
  | (none, fs1) => .normal 2 fs1 ⟨false, false, true, ""⟩
  | (some pidFile, fs1) =>
    let cache := NewCommandCache cacheDir command cacheTimeout
    if IsValid cache fs1 w.now then
      let out := readFileOrDefault fs1 cache.OutputCache ""
      let returnCode := atoiOrZero (readFileOrDefault fs1 cache.ExitFile "0")
      .normal returnCode (fs1.remove pidFile) ⟨true, false, false, out⟩
    else
      match ExecuteCommand w.child w.now command cache fs1 with
      | .fatal fs2 => .fatal fs2 ⟨true, false, false, ""⟩
      | .normal code fs2 eff =>
        let fs3 := if code ≠ 0 && !cacheOnError then Invalidate cache fs2 else fs2
        .normal code (fs3.remove pidFile) ⟨true, true, false, eff.callerStdout⟩

/-! Section: Auxiliary notions for the fingerprint-sensitivity analysis -/

/-- No space character occurs in the character list. -/
def spaceFreeL (l : List Char) : Prop := ∀ c ∈ l, c ≠ ' '

/-- No argument of the command contains a space character. -/
def spaceFreeCmd (l : List String) : Prop := ∀ s ∈ l, ∀ c ∈ s.data, c ≠ ' '

/-- Character-level image of `strings.Join(_, " ")` on the tail arguments:
each one is preceded by the single-space delimiter. -/
def tailJoin (l : List (List Char)) : List Char :=
  (l.map (fun x => ' ' :: x)).flatten

/-- Character-level image of `strings.Join(_, " ")`. -/
def joinData : List (List Char) → List Char
  | [] => []
  | a :: rest => a ++ tailJoin rest

/-! Part: Theorems -/

set_option maxRecDepth 40000

instance (l : List String) : Decidable (spaceFreeCmd l) := by
  unfold spaceFreeCmd
  infer_instance

instance (l : List Char) : Decidable (spaceFreeL l) := by
  unfold spaceFreeL
  infer_instance

/-! Section: Filesystem and path lemmas -/

theorem set_self (fs : FS) (p : String) (e : FileEntry) : FS.set fs p e p = some e := by
  simp [FS.set]

theorem set_ne (fs : FS) (p q : String) (e : FileEntry) (h : q ≠ p) :
    FS.set fs p e q = fs q := by
  simp [FS.set, h]

theorem remove_self (fs : FS) (p : String) : FS.remove fs p p = none := by
  simp [FS.remove]

theorem remove_ne (fs : FS) (p q : String) (h : q ≠ p) : FS.remove fs p q = fs q := by
  simp [FS.remove, h]

theorem string_append_cancel_left (a b c : String) (h : a ++ b = a ++ c) : b = c := by
  apply String.ext
  simpa [String.data_append] using congrArg String.data h

theorem filepathJoin_stem_ne (d stem a b : String) (hne : a ≠ b) :
    filepathJoin d (stem ++ a) ≠ filepathJoin d (stem ++ b) := by
  intro he
  apply hne
  unfold filepathJoin at he
  have h1 := string_append_cancel_left _ _ _ he
  exact string_append_cancel_left _ _ _ h1

theorem IsValid_set_ne (cc : CommandCache) (fs : FS) (now : ℚ) (p : String)
    (e : FileEntry) (h : cc.OutputCache ≠ p) :
    IsValid cc (FS.set fs p e) now = IsValid cc fs now := by
  simp [IsValid, statMod, FS.set, h]

/-! Section: The space-join underlying the fingerprint -/

theorem intercalate_go_data (l : List String) (acc : String) :
    (String.intercalate.go acc " " l).data = acc.data ++ tailJoin (l.map String.data) := by
  induction l generalizing acc with
  | nil => simp [String.intercalate.go, tailJoin]
  | cons a as ih =>
    rw [show String.intercalate.go acc " " (a :: as)
        = String.intercalate.go (acc ++ " " ++ a) " " as from rfl, ih]
    have hsp : (" " : String).data = [' '] := rfl
    simp [String.data_append, hsp, tailJoin]

theorem hashInput_data (l : List String) :
    (hashInput l).data = joinData (l.map String.data) := by
  cases l with
  | nil => rfl
  | cons a as =>
    simp [hashInput, String.intercalate, intercalate_go_data, joinData]

theorem tailJoin_shape (l : List (List Char)) :
    tailJoin l = [] ∨ ∃ t, tailJoin l = ' ' :: t := by
  cases l with
  | nil => left; rfl
  | cons a m => right; exact ⟨a ++ tailJoin m, by simp [tailJoin]⟩

theorem space_head_align (a : List Char) : ∀ (b x y : List Char), spaceFreeL a →
    spaceFreeL b → (x = [] ∨ ∃ t, x = ' ' :: t) → (y = [] ∨ ∃ t, y = ' ' :: t) →
    a ++ x = b ++ y → a = b ∧ x = y := by
  induction a with
  | nil =>
    intro b x y _ hb hx hy h
    cases b with
    | nil => exact ⟨rfl, by simpa using h⟩
    | cons c b2 =>
      exfalso
      rcases hx with rfl | ⟨t, rfl⟩
      · simp at h
      · simp only [List.nil_append, List.cons_append, List.cons.injEq] at h
        exact hb c (by simp) (Eq.symm h.1)
  | cons c a2 ih =>
    intro b x y ha hb hx hy h
    cases b with
    | nil =>
      exfalso
      rcases hy with rfl | ⟨t, rfl⟩
      · simp at h
      · simp only [List.nil_append, List.cons_append, List.cons.injEq] at h
        exact ha c (by simp) h.1
    | cons c2 b2 =>
      simp only [List.cons_append, List.cons.injEq] at h
      obtain ⟨rfl, h2⟩ := h
      obtain ⟨rfl, hxy⟩ := ih b2 x y (fun d hd => ha d (by simp [hd]))
        (fun d hd => hb d (by simp [hd])) hx hy h2
      exact ⟨rfl, hxy⟩

theorem tailJoin_inj (l1 : List (List Char)) : ∀ (l2 : List (List Char)),
    (∀ a ∈ l1, spaceFreeL a) → (∀ a ∈ l2, spaceFreeL a) →
    tailJoin l1 = tailJoin l2 → l1 = l2 := by
  induction l1 with
  | nil =>
    intro l2 _ h2 h
    cases l2 with
    | nil => rfl
    | cons b m => exfalso; simp [tailJoin] at h
  | cons a m ih =>
    intro l2 h1 h2 h
    cases l2 with
    | nil => exfalso; simp [tailJoin] at h
    | cons b m2 =>
      obtain ⟨hab, ht⟩ := space_head_align a b (tailJoin m) (tailJoin m2)
        (h1 a (by simp)) (h2 b (by simp)) (tailJoin_shape m) (tailJoin_shape m2)
        (by simpa [tailJoin] using h)
      subst hab
      rw [ih m2 (fun d hd => h1 d (by simp [hd])) (fun d hd => h2 d (by simp [hd])) ht]

theorem joinData_inj (l1 l2 : List (List Char)) (h1 : l1 ≠ []) (h2 : l2 ≠ [])
    (s1 : ∀ a ∈ l1, spaceFreeL a) (s2 : ∀ a ∈ l2, spaceFreeL a)
    (h : joinData l1 = joinData l2) : l1 = l2 := by
  match l1, l2 with
  | a :: m, b :: m2 =>
    unfold joinData at h
    obtain ⟨hab, ht⟩ := space_head_align a b (tailJoin m) (tailJoin m2)
      (s1 a (by simp)) (s2 b (by simp)) (tailJoin_shape m) (tailJoin_shape m2) h
    subst hab
    rw [tailJoin_inj m m2 (fun d hd => s1 d (by simp [hd]))
      (fun d hd => s2 d (by simp [hd])) ht]

/-! Section: Decimal round-trip for the exit record -/

theorem atoiStep_digit (m d : Nat) (h : d < 10) :
    atoiStep (some m) (Char.ofNat (48 + d)) = some (m * 10 + d) := by
  have hdv : digitVal (Char.ofNat (48 + d)) = some d := by interval_cases d <;> decide
  simp [atoiStep, hdv]

theorem itoaAux_fold (fuel : Nat) : ∀ n, n < fuel →
    List.foldl atoiStep (some 0) (itoaAux fuel n) = some n := by
  induction fuel with
  | zero => intro n h; omega
  | succ fuel ih =>
    intro n h
    unfold itoaAux
    by_cases h10 : n < 10
    · simpa [h10] using atoiStep_digit 0 n h10
    · have hdiv : n / 10 < fuel := by
        have := Nat.div_lt_self (by omega : 0 < n) (by omega : 1 < 10)
        omega
      simp only [h10, if_false, List.foldl_append]
      rw [ih (n / 10) hdiv]
      have hm : n % 10 < 10 := Nat.mod_lt _ (by omega)
      simp only [List.foldl_cons, List.foldl_nil]
      rw [atoiStep_digit _ _ hm]
      congr 1
      have := Nat.div_add_mod n 10
      omega

theorem itoaAux_head (fuel : Nat) : ∀ n, n < fuel →
    ∃ d t, itoaAux fuel n = Char.ofNat (48 + d) :: t ∧ d < 10 := by
  induction fuel with
  | zero => intro n h; omega
  | succ fuel ih =>
    intro n h
    unfold itoaAux
    by_cases h10 : n < 10
    · exact ⟨n, [], by simp [h10], h10⟩
    · have hdiv : n / 10 < fuel := by
        have := Nat.div_lt_self (by omega : 0 < n) (by omega : 1 < 10)
        omega
      obtain ⟨d, t, ht, hd⟩ := ih (n / 10) hdiv
      exact ⟨d, t ++ [Char.ofNat (48 + n % 10)], by simp [h10, ht], hd⟩

theorem parseNatDigits_itoaNat (n : Nat) : parseNatDigits (itoaNat n) = some n := by
  obtain ⟨d, t, ht, hd⟩ := itoaAux_head (n + 1) n (Nat.lt_succ_self n)
  unfold parseNatDigits itoaNat
  rw [ht]
  simp only [List.isEmpty, if_false, Bool.false_eq_true]
  rw [← ht]
  exact itoaAux_fold (n + 1) n (Nat.lt_succ_self n)

theorem digitChar_toNat (d : Nat) (h : d < 10) : (Char.ofNat (48 + d)).toNat = 48 + d := by
  interval_cases d <;> decide

theorem goAtoi_goItoa (n : Int) : goAtoi (goItoa n) = some n := by
  cases n with
  | ofNat m =>
    have hneg : ¬((Int.ofNat m) < 0) := Int.not_lt.mpr (Int.ofNat_zero_le m)
    obtain ⟨d, t, ht, hd⟩ := itoaAux_head (m + 1) m (Nat.lt_succ_self m)
    have hdata : itoaNat (Int.ofNat m).toNat = Char.ofNat (48 + d) :: t := by
      simpa [itoaNat] using ht
    have hC := digitChar_toNat d hd
    have hne1 : Char.ofNat (48 + d) ≠ '-' := by
      intro hEq
      have h2 := congrArg Char.toNat hEq
      rw [hC, show ('-' : Char).toNat = 45 from rfl] at h2
      omega
    have hne2 : Char.ofNat (48 + d) ≠ '+' := by
      intro hEq
      have h2 := congrArg Char.toNat hEq
      rw [hC, show ('+' : Char).toNat = 43 from rfl] at h2
      omega
    unfold goItoa
    rw [if_neg hneg]
    unfold goAtoi
    rw [show (String.mk (itoaNat (Int.ofNat m).toNat)).data
        = Char.ofNat (48 + d) :: t from hdata]
    have hback : Char.ofNat (48 + d) :: t = itoaNat m := by
      simpa [itoaNat] using ht.symm
    simp only [hne1, hne2, if_false]
    rw [hback, parseNatDigits_itoaNat]
    simp
  | negSucc m =>
    have hneg : (Int.negSucc m) < 0 := Int.negSucc_lt_zero m
    unfold goItoa
    rw [if_pos hneg]
    unfold goAtoi
    rw [show (String.mk (Char.ofNat 45 :: itoaNat (Int.negSucc m).natAbs)).data
        = Char.ofNat 45 :: itoaNat (Int.negSucc m).natAbs from rfl]
    rw [show (Int.negSucc m).natAbs = m + 1 from rfl]
    simp only [show (Char.ofNat 45 = '-') = True by simp, if_true, parseNatDigits_itoaNat]
    simp [Int.negSucc_eq]

theorem atoiOrZero_goItoa (n : Int) : atoiOrZero (goItoa n) = n := by
  simp [atoiOrZero, goAtoi_goItoa]

/-! Section: Guard wait loop lemmas -/

theorem waitLoop_cleared_at (obs : Nat → Option String) (running : Int → Bool)
    (i fuel : Nat) (h : obs i = none) :
    waitLoop obs running i (fuel + 1) = .cleared i := by
  simp [waitLoop, h]

theorem waitLoop_stale_at (obs : Nat → Option String) (running : Int → Bool)
    (i fuel : Nat) (s : String) (h1 : obs i = some s)
    (h2 : getPidFromFile (some s) ≠ -1)
    (h3 : running (getPidFromFile (some s)) = false) :
    waitLoop obs running i (fuel + 1) = .removedBad i := by
  simp [waitLoop, h1, h2, h3]

theorem waitLoop_live_timeout (obs : Nat → Option String) (running : Int → Bool) :
    ∀ fuel i, (∀ j, i ≤ j → j < i + fuel → ∃ s, obs j = some s ∧
      getPidFromFile (some s) ≠ -1 ∧ running (getPidFromFile (some s)) = true) →
    waitLoop obs running i fuel = .timeout := by
  intro fuel
  induction fuel with
  | zero => intro i _; rfl
  | succ fuel ih =>
    intro i h
    obtain ⟨s, hs, hp, hr⟩ := h i (Nat.le_refl i) (by omega)
    simp only [waitLoop, hs, hp, hr]
    simp only [if_neg hp, Bool.not_true, Bool.false_eq_true, if_false]
    exact ih (i + 1) (fun j hj1 hj2 => h j (by omega) (by omega))

theorem waitLoop_polls_bound (obs : Nat → Option String) (running : Int → Bool) :
    ∀ fuel i j, (waitLoop obs running i fuel = .cleared j ∨
      waitLoop obs running i fuel = .removedBad j) → j < i + fuel := by
  intro fuel
  induction fuel with
  | zero => intro i j h; rcases h with h | h <;> simp [waitLoop] at h
  | succ fuel ih =>
    intro i j h
    rcases hobs : obs i with _ | s
    · rw [waitLoop_cleared_at obs running i fuel hobs] at h
      rcases h with h | h
      · injection h with h2
        omega
      · exact WaitResult.noConfusion h
    · by_cases hp : getPidFromFile (some s) = -1
      · have hbad : waitLoop obs running i (fuel + 1) = .removedBad i := by
          simp [waitLoop, hobs, hp]
        rw [hbad] at h
        rcases h with h | h
        · exact WaitResult.noConfusion h
        · injection h with h2
          omega
      · by_cases hr : running (getPidFromFile (some s)) = true
        · have hrec : waitLoop obs running i (fuel + 1) = waitLoop obs running (i + 1) fuel := by
            simp [waitLoop, hobs, hp, hr]
          rw [hrec] at h
          have := ih (i + 1) j h
          omega
        · have hr2 : running (getPidFromFile (some s)) = false := by
            rw [Bool.not_eq_true] at hr
            exact hr
          rw [waitLoop_stale_at obs running i fuel s hobs hp hr2] at h
          rcases h with h | h
          · exact WaitResult.noConfusion h
          · injection h with h2
            omega

theorem wait_polls_le (obs : Nat → Option String) (running : Int → Bool) (wt : Nat) :
    WaitResult.polls wt (waitForPreviousCommand obs running wt) ≤ wt := by
  rcases h : waitForPreviousCommand obs running wt with i | i | _
  · have := waitLoop_polls_bound obs running wt 0 i (Or.inl h)
    simp [WaitResult.polls]
    omega
  · have := waitLoop_polls_bound obs running wt 0 i (Or.inr h)
    simp [WaitResult.polls]
    omega
  · simp [WaitResult.polls]

/-! Section: Execution and orchestrator equations -/

theorem exec_eq_exit (child : ChildBehavior) (now : ℚ) (cmd : List String)
    (cc : CommandCache) (fs : FS) (line : String) (n : Int)
    (hc : ConstructBashCommand cmd = .ok line) (ho : child.outcome = .exited n)
    (hn : n ≠ 0) :
    ExecuteCommand child now cmd cc fs =
      .normal n
        (FS.set (FS.set (FS.set fs cc.OutputCache ⟨"", now, true⟩)
          cc.OutputCache ⟨child.out, now, true⟩) cc.ExitFile ⟨goItoa n, now, true⟩)
        ⟨child.out, child.errOut⟩ := by
  simp [ExecuteCommand, hc, ho, hn]

theorem exec_eq_exit_zero (child : ChildBehavior) (now : ℚ) (cmd : List String)
    (cc : CommandCache) (fs : FS) (line : String)
    (hc : ConstructBashCommand cmd = .ok line) (ho : child.outcome = .exited 0) :
    ExecuteCommand child now cmd cc fs =
      .normal 0
        (FS.set (FS.set fs cc.OutputCache ⟨"", now, true⟩)
          cc.OutputCache ⟨child.out, now, true⟩)
        ⟨child.out, child.errOut⟩ := by
  simp [ExecuteCommand, hc, ho]

theorem exec_normal (child : ChildBehavior) (now : ℚ) (cmd : List String)
    (cc : CommandCache) (fs : FS) (line : String)
    (hc : ConstructBashCommand cmd = .ok line) :
    ∃ code fsx eff, ExecuteCommand child now cmd cc fs = .normal code fsx eff := by
  rcases ho : child.outcome with n | _ | _
  · by_cases hn : n = 0
    · subst hn
      exact ⟨0, _, _, exec_eq_exit_zero child now cmd cc fs line hc ho⟩
    · exact ⟨n, _, _, exec_eq_exit child now cmd cc fs line n hc ho hn⟩
  · refine ⟨1, FS.set fs cc.OutputCache ⟨"", now, true⟩, ⟨"", ""⟩, ?_⟩
    simp [ExecuteCommand, hc, ho]
  · refine ⟨1, FS.set (FS.set fs cc.OutputCache ⟨"", now, true⟩)
      cc.OutputCache ⟨child.out, now, true⟩, ⟨child.out, child.errOut⟩, ?_⟩
    simp [ExecuteCommand, hc, ho]

theorem run_eq_acquired (cacheDir : String) (w : World) (cmd : List String)
    (τ : ℚ) (e a : Bool) (fs : FS) (hobs : w.obs 0 = none) :
    RunCached cacheDir w cmd τ e a fs =
      (let pidFile := filepathJoin cacheDir (GenerateCommandHash cmd ++ ".pid")
       let fs1 := FS.set fs pidFile ⟨goItoa w.myPid, w.now, true⟩
       let cache := NewCommandCache cacheDir cmd τ
       if IsValid cache fs1 w.now then
         .normal (atoiOrZero (readFileOrDefault fs1 cache.ExitFile "0"))
           (fs1.remove pidFile)
           ⟨true, false, false, readFileOrDefault fs1 cache.OutputCache ""⟩
       else
         match ExecuteCommand w.child w.now cmd cache fs1 with
         | .fatal fs2 => .fatal fs2 ⟨true, false, false, ""⟩
         | .normal code fs2 eff =>
           .normal code
             ((if code ≠ 0 && !e then Invalidate cache fs2 else fs2).remove pidFile)
             ⟨true, true, false, eff.callerStdout⟩) := by
  have hw : waitForPreviousCommand w.obs w.running maxWaitPrevSec = .cleared 0 := by
    unfold waitForPreviousCommand
    exact waitLoop_cleared_at w.obs w.running 0 4 hobs
  simp only [RunCached, CreatePidFile, hw]
/-! Section: Claim theorems -/

/-- Claim C8: cache validity is purely a function of time — `IsValid` is
false when no output blob exists or its metadata cannot be read, and
otherwise is true exactly when `now` minus the blob's modification time is
at most the caller-supplied timeout. -/
theorem c8_cache_validity_pure_time_function (cc : CommandCache) (fs : FS) (now : ℚ) :
    IsValid cc fs now = true ↔
      ∃ e, fs cc.OutputCache = some e ∧ e.metaReadable = true ∧
        now - e.modTime ≤ cc.CacheTimeout := by
  unfold IsValid statMod
  cases h : fs cc.OutputCache with
  | none => simp [h]
  | some e =>
    cases hm : e.metaReadable with
    | false => simp [h, hm]
    | true => simp [h, hm, decide_eq_true_iff]

/-- Claim C2, counterexample: two command specifications that differ in
argument count (`["a b"]` versus `["a", "b"]`) receive the same fingerprint
with certainty, because `GenerateCommandHash` joins the arguments with a
single space before hashing. -/
theorem c2_fingerprint_collision_space_split :
    GenerateCommandHash ["a b"] = GenerateCommandHash ["a", "b"] ∧
    (["a b"] : List String) ≠ ["a", "b"] := by
  constructor
  · unfold GenerateCommandHash
    rw [show hashInput ["a b"] = hashInput ["a", "b"] from by decide]
  · decide

/-- Claim C2, amended: for nonempty command specifications in which no
argument contains a space, any difference in arguments, order, or count
changes the exact string fed to the MD5 hasher, so the fingerprints differ
with overwhelming probability; specifications differing only in how
whitespace splits the arguments collide with certainty. -/
theorem c2_fingerprint_sensitivity_spacefree (l1 l2 : List String)
    (h1 : l1 ≠ []) (h2 : l2 ≠ [])
    (s1 : spaceFreeCmd l1) (s2 : spaceFreeCmd l2) (hne : l1 ≠ l2) :
    hashInput l1 ≠ hashInput l2 := by
  intro h
  apply hne
  have hd := congrArg String.data h
  rw [hashInput_data, hashInput_data] at hd
  have hmaps := joinData_inj _ _ (by simpa using h1) (by simpa using h2)
    (fun a ha => by obtain ⟨s, hs, rfl⟩ := List.mem_map.mp ha; exact s1 s hs)
    (fun a ha => by obtain ⟨s, hs, rfl⟩ := List.mem_map.mp ha; exact s2 s hs) hd
  exact List.map_injective_iff.mpr (fun a b hab => String.ext hab) hmaps

/-- Witness for C2's amended theorem at the commands `["echo", "a"]` and
`["echo", "b"]`. -/
theorem c2_fingerprint_sensitivity_spacefree_witness :
    (["echo", "a"] : List String) ≠ ["echo", "b"] ∧
    hashInput ["echo", "a"] ≠ hashInput ["echo", "b"] :=
  ⟨by decide, c2_fingerprint_sensitivity_spacefree ["echo", "a"] ["echo", "b"]
    (by decide) (by decide) (by decide) (by decide) (by decide)⟩

/-- Claim C1: the claim says the exit record is overwritten on every
execution; evaluating `ExecuteCommand` at a child that exits 0 while a
previous exit record "3" is on disk shows the record is left at "3" instead
of being overwritten with "0" — the exit file is written only in the
`exec.ExitError` (non-zero) branch. -/
theorem c1_exit_record_not_overwritten_on_success :
    let cc : CommandCache := NewCommandCache "/tmp" ["true"] 20
    let r : ExecResult := ExecuteCommand ⟨"ok\n", "", .exited 0⟩ 1 ["true"] cc
      (FS.set emptyFS cc.ExitFile ⟨"3", 0, true⟩)
    r.codeOf = some 0 ∧
    (r.fsOf cc.ExitFile).map FileEntry.content = some "3" := by decide

/-- Claim C4: the claim says stdout and stderr are merged into one stream
that feeds both sinks; evaluating `ExecuteCommand` on a child producing
"out\n" on stdout and "err\n" on stderr shows the cache blob and the
caller's stdout receive only "out\n" while "err\n" goes separately to the
caller's stderr (`cmd.Stderr = os.Stderr`), unmerged and uncached. -/
theorem c4_stderr_not_merged_into_cached_stream :
    let cc : CommandCache := NewCommandCache "/tmp" ["mix"] 20
    let r : ExecResult := ExecuteCommand ⟨"out\n", "err\n", .exited 0⟩ 0 ["mix"] cc emptyFS
    (r.fsOf cc.OutputCache).map FileEntry.content = some "out\n" ∧
    r.effOf.callerStdout = "out\n" ∧ r.effOf.callerStderr = "err\n" := by decide

/-- Claim C5: the claim says every argument reaches the child unchanged
after shell re-tokenization; for the spec's own example argument
`he said "hi"` the constructed line is `echo he said \\"hi\\"`, which the
POSIX tokenizer splits into the three arguments `he`, `said`, `\hi\` — the
original boundaries and characters are destroyed. -/
theorem c5_quoting_mangles_argument :
    (ConstructBashCommand (PreprocessArguments ["echo", "he said \"hi\""])).toOption =
      some "echo he said \\\\\"hi\\\\\"" ∧
    bashTokenize "echo he said \\\\\"hi\\\\\"" =
      some ["echo", "he", "said", "\\hi\\"] ∧
    (["echo", "he", "said", "\\hi\\"] : List String) ≠ ["echo", "he said \"hi\""] := by
  decide

/-- Claim C7: the claim says the guard lock is removed on every exit path;
evaluating `RunCached` on a command whose quoting fails to parse
(`he"llo`, an unclosed quote after escaping) shows the invocation takes the
`log.Fatal` path with the lock acquired and the pid file still present —
`os.Exit` skips the deferred removal. -/
theorem c7_parse_failure_leaks_guard_lock :
    let w : World := ⟨fun _ => none, fun _ => true, 77, 0, ⟨"", "", .exited 0⟩⟩
    let r := RunCached "/tmp" w ["he\"llo"] 20 false false emptyFS
    r.isFatal = true ∧ r.effOf.acquired = true ∧
    (r.fsOf (filepathJoin "/tmp" (GenerateCommandHash ["he\"llo"] ++ ".pid"))).map
      FileEntry.content = some "77" := by decide

/-- Claim C3, counterexample: with a lock file whose recorded PID 99999 is
not running, the invocation does not proceed to its cache-check/execute
cycle — it removes the stale lock but returns exit code 2 with the timeout
message, surfacing the recovery as an error. -/
theorem c3_stale_lock_aborts_current_invocation :
    let pidPath := filepathJoin "/tmp" (GenerateCommandHash ["date"] ++ ".pid")
    let w : World := ⟨fun _ => some "99999", fun _ => false, 88, 0, ⟨"x\n", "", .exited 0⟩⟩
    let r := RunCached "/tmp" w ["date"] 20 false false
      (FS.set emptyFS pidPath ⟨"99999", 0, true⟩)
    r.codeOf = some 2 ∧ r.effOf.timeoutMsg = true ∧ r.effOf.executed = false ∧
    r.effOf.acquired = false ∧ r.fsOf pidPath = none := by decide

/-- Claim C3, amended: when guard acquisition finds a stale lock (a
recorded PID that parses and belongs to no running process) the stale lock
file is removed, but the current invocation gives up with the timeout
outcome (exit code 2 and the timeout message) instead of proceeding; only
a subsequent invocation, now finding no lock, acquires the guard. -/
theorem c3_stale_lock_removed_but_timeout_reported (cacheDir : String) (w : World)
    (cmd : List String) (τ : ℚ) (e a : Bool) (fs : FS) (s : String)
    (h1 : w.obs 0 = some s) (h2 : getPidFromFile (some s) ≠ -1)
    (h3 : w.running (getPidFromFile (some s)) = false)
    (w2 : World) (h4 : w2.obs 0 = none) :
    (RunCached cacheDir w cmd τ e a fs).codeOf = some 2 ∧
    (RunCached cacheDir w cmd τ e a fs).effOf.timeoutMsg = true ∧
    (RunCached cacheDir w cmd τ e a fs).fsOf
      (filepathJoin cacheDir (GenerateCommandHash cmd ++ ".pid")) = none ∧
    (RunCached cacheDir w2 cmd τ e a
      ((RunCached cacheDir w cmd τ e a fs).fsOf)).effOf.acquired = true := by
  have hw : waitForPreviousCommand w.obs w.running maxWaitPrevSec = .removedBad 0 := by
    unfold waitForPreviousCommand
    exact waitLoop_stale_at w.obs w.running 0 4 s h1 h2 h3
  have hw2 : waitForPreviousCommand w2.obs w2.running maxWaitPrevSec = .cleared 0 := by
    unfold waitForPreviousCommand
    exact waitLoop_cleared_at w2.obs w2.running 0 4 h4
  refine ⟨?_, ?_, ?_, ?_⟩
  · simp [RunCached, CreatePidFile, hw, RunResult.codeOf]
  · simp [RunCached, CreatePidFile, hw, RunResult.effOf]
  · simp [RunCached, CreatePidFile, hw, RunResult.fsOf, FS.remove]
  · simp only [RunCached, CreatePidFile, hw, hw2]
    split
    · simp [RunResult.effOf]
    · split <;> simp [RunResult.effOf]

/-- Witness for C3's amended theorem: a concrete stale lock "4242" held by
no running process. -/
theorem c3_stale_lock_removed_but_timeout_reported_witness :
    (⟨fun _ => some "4242", fun _ => false, 9, 0, ⟨"", "", .exited 0⟩⟩ :
      World).obs 0 = some "4242" ∧
    getPidFromFile (some "4242") ≠ -1 ∧
    ((RunCached "/tmp" ⟨fun _ => some "4242", fun _ => false, 9, 0, ⟨"", "", .exited 0⟩⟩
        ["w"] 20 false false emptyFS).codeOf = some 2 ∧
      (RunCached "/tmp" ⟨fun _ => some "4242", fun _ => false, 9, 0, ⟨"", "", .exited 0⟩⟩
        ["w"] 20 false false emptyFS).effOf.timeoutMsg = true ∧
      (RunCached "/tmp" ⟨fun _ => some "4242", fun _ => false, 9, 0, ⟨"", "", .exited 0⟩⟩
        ["w"] 20 false false emptyFS).fsOf
        (filepathJoin "/tmp" (GenerateCommandHash ["w"] ++ ".pid")) = none ∧
      (RunCached "/tmp" ⟨fun _ => none, fun _ => true, 10, 0, ⟨"", "", .exited 0⟩⟩
        ["w"] 20 false false
        ((RunCached "/tmp" ⟨fun _ => some "4242", fun _ => false, 9, 0, ⟨"", "", .exited 0⟩⟩
          ["w"] 20 false false emptyFS).fsOf)).effOf.acquired = true) :=
  ⟨rfl, by decide,
    c3_stale_lock_removed_but_timeout_reported "/tmp"
      ⟨fun _ => some "4242", fun _ => false, 9, 0, ⟨"", "", .exited 0⟩⟩
      ["w"] 20 false false emptyFS "4242" rfl (by decide) rfl
      ⟨fun _ => none, fun _ => true, 10, 0, ⟨"", "", .exited 0⟩⟩ rfl⟩

/-- Claim C9, counterexample: after an execution completes (child exits 0
on a fresh filesystem), only the output blob exists; neither the exit
record nor the command-line record was written — the code never writes the
`.cmd` file at all. -/
theorem c9_command_record_never_written :
    let cc := NewCommandCache "/tmp" ["ls"] 20
    let r := ExecuteCommand ⟨"x\n", "", .exited 0⟩ 0 ["ls"] cc emptyFS
    r.codeOf = some 0 ∧ r.fsOf cc.CmdFile = none ∧ r.fsOf cc.ExitFile = none ∧
    (r.fsOf cc.OutputCache).isSome = true := by decide

/-- Claim C9, amended: the cache derives three artifact paths from the
fingerprint stem with suffixes `.data`, `.exit` and `.cmd`; after an
execution the output blob exists at the `.data` path, but the command-line
record is never written (the `.cmd` path stays exactly as it was). -/
theorem c9_artifact_paths_and_partial_writes (cacheDir : String) (cmd : List String)
    (τ : ℚ) (fs : FS) (child : ChildBehavior) (now : ℚ) (line : String) (n : Int)
    (hc : ConstructBashCommand cmd = .ok line) (ho : child.outcome = .exited n) :
    (NewCommandCache cacheDir cmd τ).OutputCache
      = filepathJoin cacheDir (GenerateCommandHash cmd ++ ".data") ∧
    (NewCommandCache cacheDir cmd τ).ExitFile
      = filepathJoin cacheDir (GenerateCommandHash cmd ++ ".exit") ∧
    (NewCommandCache cacheDir cmd τ).CmdFile
      = filepathJoin cacheDir (GenerateCommandHash cmd ++ ".cmd") ∧
    ((ExecuteCommand child now cmd (NewCommandCache cacheDir cmd τ) fs).fsOf
      (NewCommandCache cacheDir cmd τ).OutputCache).isSome = true ∧
    (ExecuteCommand child now cmd (NewCommandCache cacheDir cmd τ) fs).fsOf
      (NewCommandCache cacheDir cmd τ).CmdFile
      = fs (NewCommandCache cacheDir cmd τ).CmdFile := by
  have hde : filepathJoin cacheDir (GenerateCommandHash cmd ++ ".data")
      ≠ filepathJoin cacheDir (GenerateCommandHash cmd ++ ".exit") :=
    filepathJoin_stem_ne _ _ _ _ (by decide)
  have hcd : filepathJoin cacheDir (GenerateCommandHash cmd ++ ".cmd")
      ≠ filepathJoin cacheDir (GenerateCommandHash cmd ++ ".data") :=
    filepathJoin_stem_ne _ _ _ _ (by decide)
  have hce : filepathJoin cacheDir (GenerateCommandHash cmd ++ ".cmd")
      ≠ filepathJoin cacheDir (GenerateCommandHash cmd ++ ".exit") :=
    filepathJoin_stem_ne _ _ _ _ (by decide)
  refine ⟨rfl, rfl, rfl, ?_, ?_⟩
  · simp only [ExecuteCommand, hc, ho]
    by_cases hn : n = 0 <;>
      simp [hn, ExecResult.fsOf, FS.set, NewCommandCache, hde]
  · simp only [ExecuteCommand, hc, ho]
    by_cases hn : n = 0 <;>
      simp [hn, ExecResult.fsOf, FS.set, NewCommandCache, hcd, hce]

/-- Witness for C9's amended theorem at the command `["g"]` with a child
exiting 5. -/
theorem c9_artifact_paths_and_partial_writes_witness :
    ConstructBashCommand ["g"] = .ok "g" ∧
    ((NewCommandCache "/tmp" ["g"] 20).OutputCache
        = filepathJoin "/tmp" (GenerateCommandHash ["g"] ++ ".data") ∧
      (NewCommandCache "/tmp" ["g"] 20).ExitFile
        = filepathJoin "/tmp" (GenerateCommandHash ["g"] ++ ".exit") ∧
      (NewCommandCache "/tmp" ["g"] 20).CmdFile
        = filepathJoin "/tmp" (GenerateCommandHash ["g"] ++ ".cmd") ∧
      ((ExecuteCommand ⟨"x\n", "", .exited 5⟩ 0 ["g"] (NewCommandCache "/tmp" ["g"] 20)
        emptyFS).fsOf (NewCommandCache "/tmp" ["g"] 20).OutputCache).isSome = true ∧
      (ExecuteCommand ⟨"x\n", "", .exited 5⟩ 0 ["g"] (NewCommandCache "/tmp" ["g"] 20)
        emptyFS).fsOf (NewCommandCache "/tmp" ["g"] 20).CmdFile
        = emptyFS (NewCommandCache "/tmp" ["g"] 20).CmdFile) :=
  ⟨rfl, c9_artifact_paths_and_partial_writes "/tmp" ["g"] 20 emptyFS
    ⟨"x\n", "", .exited 5⟩ 0 "g" 5 rfl rfl⟩

/-- Claim C10: guard acquisition is bounded by the hard-coded constant
`maxWaitPrevSec = 5`: the wait loop performs at most `waitTimeSec` polls
for any observations, and when a live lock is observed at every poll the
loop times out and the invocation gives up with exit code 2 without
executing. -/
theorem c10_guard_wait_bounded (cacheDir : String) (w : World) (cmd : List String)
    (τ : ℚ) (e a : Bool) (fs : FS) (obs2 : Nat → Option String)
    (running2 : Int → Bool) (wt : Nat)
    (hlive : ∀ i, i < maxWaitPrevSec → ∃ s, w.obs i = some s ∧
      getPidFromFile (some s) ≠ -1 ∧ w.running (getPidFromFile (some s)) = true) :
    maxWaitPrevSec = 5 ∧
    WaitResult.polls wt (waitForPreviousCommand obs2 running2 wt) ≤ wt ∧
    waitForPreviousCommand w.obs w.running maxWaitPrevSec = .timeout ∧
    (RunCached cacheDir w cmd τ e a fs).codeOf = some 2 ∧
    (RunCached cacheDir w cmd τ e a fs).effOf.executed = false ∧
    (RunCached cacheDir w cmd τ e a fs).effOf.timeoutMsg = true := by
  have htime : waitForPreviousCommand w.obs w.running maxWaitPrevSec = .timeout := by
    unfold waitForPreviousCommand
    exact waitLoop_live_timeout w.obs w.running maxWaitPrevSec 0
      (fun j hj1 hj2 => hlive j (by omega))
  refine ⟨rfl, wait_polls_le obs2 running2 wt, htime, ?_, ?_, ?_⟩ <;>
    simp [RunCached, CreatePidFile, htime, RunResult.codeOf, RunResult.effOf]

/-- Witness for C10 at a lock held by the live process 7 throughout. -/
theorem c10_guard_wait_bounded_witness :
    getPidFromFile (some "7") ≠ -1 ∧
    (maxWaitPrevSec = 5 ∧
      WaitResult.polls 3 (waitForPreviousCommand (fun _ => none) (fun _ => true) 3) ≤ 3 ∧
      waitForPreviousCommand
        (⟨fun _ => some "7", fun _ => true, 5, 0, ⟨"", "", .exited 0⟩⟩ : World).obs
        (⟨fun _ => some "7", fun _ => true, 5, 0, ⟨"", "", .exited 0⟩⟩ : World).running
        maxWaitPrevSec = .timeout ∧
      (RunCached "/tmp" ⟨fun _ => some "7", fun _ => true, 5, 0, ⟨"", "", .exited 0⟩⟩
        ["h"] 20 false false emptyFS).codeOf = some 2 ∧
      (RunCached "/tmp" ⟨fun _ => some "7", fun _ => true, 5, 0, ⟨"", "", .exited 0⟩⟩
        ["h"] 20 false false emptyFS).effOf.executed = false ∧
      (RunCached "/tmp" ⟨fun _ => some "7", fun _ => true, 5, 0, ⟨"", "", .exited 0⟩⟩
        ["h"] 20 false false emptyFS).effOf.timeoutMsg = true) :=
  ⟨by decide,
    c10_guard_wait_bounded "/tmp"
      ⟨fun _ => some "7", fun _ => true, 5, 0, ⟨"", "", .exited 0⟩⟩
      ["h"] 20 false false emptyFS (fun _ => none) (fun _ => true) 3
      (fun i _ => ⟨"7", rfl, by decide, rfl⟩)⟩
/-- Claim C6: after a non-zero execution, with cache-on-error off the
just-written output blob is invalidated so a subsequent call (re-acquiring
the guard) executes again; with cache-on-error on the entry is kept
(blob written at the execution time) and a subsequent call within the
timeout window replays the failure — same non-zero exit code, same output,
without executing. -/
theorem c6_error_caching_policy (cacheDir : String) (w1 w2 : World) (cmd : List String) (τ : ℚ)
    (fs : FS) (line : String) (n : Int)
    (hc : ConstructBashCommand cmd = .ok line)
    (ho : w1.child.outcome = .exited n) (hn : n ≠ 0)
    (hobs : w1.obs 0 = none) (hobs2 : w2.obs 0 = none)
    (hmiss : IsValid (NewCommandCache cacheDir cmd τ) fs w1.now = false)
    (hwin : w2.now - w1.now ≤ τ) :
    (RunCached cacheDir w1 cmd τ false false fs).codeOf = some n ∧
    (RunCached cacheDir w1 cmd τ false false fs).effOf.executed = true ∧
    (RunCached cacheDir w1 cmd τ false false fs).fsOf
      (NewCommandCache cacheDir cmd τ).OutputCache = none ∧
    (RunCached cacheDir w2 cmd τ false false
      (RunCached cacheDir w1 cmd τ false false fs).fsOf).effOf.executed = true ∧
    (RunCached cacheDir w1 cmd τ true false fs).codeOf = some n ∧
    (RunCached cacheDir w1 cmd τ true false fs).fsOf
      (NewCommandCache cacheDir cmd τ).OutputCache
      = some ⟨w1.child.out, w1.now, true⟩ ∧
    (RunCached cacheDir w2 cmd τ true false
      (RunCached cacheDir w1 cmd τ true false fs).fsOf).effOf.executed = false ∧
    (RunCached cacheDir w2 cmd τ true false
      (RunCached cacheDir w1 cmd τ true false fs).fsOf).codeOf = some n ∧
    (RunCached cacheDir w2 cmd τ true false
      (RunCached cacheDir w1 cmd τ true false fs).fsOf).effOf.stdoutOut
      = w1.child.out := by
  have hOC : (NewCommandCache cacheDir cmd τ).OutputCache
      = filepathJoin cacheDir (GenerateCommandHash cmd ++ ".data") := rfl
  have hEX : (NewCommandCache cacheDir cmd τ).ExitFile
      = filepathJoin cacheDir (GenerateCommandHash cmd ++ ".exit") := rfl
  have hTO : (NewCommandCache cacheDir cmd τ).CacheTimeout = τ := rfl
  have hdp : filepathJoin cacheDir (GenerateCommandHash cmd ++ ".data")
      ≠ filepathJoin cacheDir (GenerateCommandHash cmd ++ ".pid") :=
    filepathJoin_stem_ne _ _ _ _ (by decide)
  have hep : filepathJoin cacheDir (GenerateCommandHash cmd ++ ".exit")
      ≠ filepathJoin cacheDir (GenerateCommandHash cmd ++ ".pid") :=
    filepathJoin_stem_ne _ _ _ _ (by decide)
  have hde : filepathJoin cacheDir (GenerateCommandHash cmd ++ ".data")
      ≠ filepathJoin cacheDir (GenerateCommandHash cmd ++ ".exit") :=
    filepathJoin_stem_ne _ _ _ _ (by decide)
  have hval1 : IsValid (NewCommandCache cacheDir cmd τ)
      (FS.set fs (filepathJoin cacheDir (GenerateCommandHash cmd ++ ".pid"))
        ⟨goItoa w1.myPid, w1.now, true⟩) w1.now = false := by
    rw [IsValid_set_ne]
    · exact hmiss
    · rw [hOC]
      exact hdp
  have hA : RunCached cacheDir w1 cmd τ false false fs =
      .normal n
        (FS.remove (FS.remove
          (FS.set (FS.set (FS.set
            (FS.set fs (filepathJoin cacheDir (GenerateCommandHash cmd ++ ".pid"))
              ⟨goItoa w1.myPid, w1.now, true⟩)
            (filepathJoin cacheDir (GenerateCommandHash cmd ++ ".data"))
              ⟨"", w1.now, true⟩)
            (filepathJoin cacheDir (GenerateCommandHash cmd ++ ".data"))
              ⟨w1.child.out, w1.now, true⟩)
            (filepathJoin cacheDir (GenerateCommandHash cmd ++ ".exit"))
              ⟨goItoa n, w1.now, true⟩)
          (filepathJoin cacheDir (GenerateCommandHash cmd ++ ".data")))
          (filepathJoin cacheDir (GenerateCommandHash cmd ++ ".pid")))
        ⟨true, true, false, w1.child.out⟩ := by
    rw [run_eq_acquired cacheDir w1 cmd τ false false fs hobs]
    simp only [hval1, if_false, Bool.false_eq_true,
      exec_eq_exit w1.child w1.now cmd (NewCommandCache cacheDir cmd τ) _ line n hc ho hn,
      Invalidate, hOC, hEX]
    simp [hn, Invalidate, hOC]
  have hB : RunCached cacheDir w1 cmd τ true false fs =
      .normal n
        (FS.remove
          (FS.set (FS.set (FS.set
            (FS.set fs (filepathJoin cacheDir (GenerateCommandHash cmd ++ ".pid"))
              ⟨goItoa w1.myPid, w1.now, true⟩)
            (filepathJoin cacheDir (GenerateCommandHash cmd ++ ".data"))
              ⟨"", w1.now, true⟩)
            (filepathJoin cacheDir (GenerateCommandHash cmd ++ ".data"))
              ⟨w1.child.out, w1.now, true⟩)
            (filepathJoin cacheDir (GenerateCommandHash cmd ++ ".exit"))
              ⟨goItoa n, w1.now, true⟩)
          (filepathJoin cacheDir (GenerateCommandHash cmd ++ ".pid")))
        ⟨true, true, false, w1.child.out⟩ := by
    rw [run_eq_acquired cacheDir w1 cmd τ true false fs hobs]
    simp only [hval1, if_false, Bool.false_eq_true,
      exec_eq_exit w1.child w1.now cmd (NewCommandCache cacheDir cmd τ) _ line n hc ho hn,
      hOC, hEX]
    simp
  have h3 : (RunCached cacheDir w1 cmd τ false false fs).fsOf
      (NewCommandCache cacheDir cmd τ).OutputCache = none := by
    rw [hA, hOC]
    simp [RunResult.fsOf, FS.remove, FS.set, hdp]
  have h6 : (RunCached cacheDir w1 cmd τ true false fs).fsOf
      (NewCommandCache cacheDir cmd τ).OutputCache
      = some ⟨w1.child.out, w1.now, true⟩ := by
    rw [hB, hOC]
    simp [RunResult.fsOf, FS.remove, FS.set, hdp, hde]
  refine ⟨by rw [hA]; rfl, by rw [hA]; rfl, h3, ?_, by rw [hB]; rfl, h6, ?_, ?_, ?_⟩
  · -- second call after invalidation executes again
    have hval2 : IsValid (NewCommandCache cacheDir cmd τ)
        (FS.set ((RunCached cacheDir w1 cmd τ false false fs).fsOf)
          (filepathJoin cacheDir (GenerateCommandHash cmd ++ ".pid"))
          ⟨goItoa w2.myPid, w2.now, true⟩) w2.now = false := by
      rw [IsValid_set_ne]
      · unfold IsValid statMod
        rw [h3]
      · rw [hOC]
        exact hdp
    rw [run_eq_acquired cacheDir w2 cmd τ false false _ hobs2]
    obtain ⟨c2, fsx2, eff2, hE2⟩ := exec_normal w2.child w2.now cmd
      (NewCommandCache cacheDir cmd τ)
      (FS.set ((RunCached cacheDir w1 cmd τ false false fs).fsOf)
        (filepathJoin cacheDir (GenerateCommandHash cmd ++ ".pid"))
        ⟨goItoa w2.myPid, w2.now, true⟩) line hc
    simp only [hval2, if_false, Bool.false_eq_true, hE2]
    rfl
  · -- replay branch: not executed
    have hval2B : IsValid (NewCommandCache cacheDir cmd τ)
        (FS.set ((RunCached cacheDir w1 cmd τ true false fs).fsOf)
          (filepathJoin cacheDir (GenerateCommandHash cmd ++ ".pid"))
          ⟨goItoa w2.myPid, w2.now, true⟩) w2.now = true := by
      rw [IsValid_set_ne]
      · unfold IsValid statMod
        rw [h6]
        simp only [hTO]
        simpa using hwin
      · rw [hOC]
        exact hdp
    rw [run_eq_acquired cacheDir w2 cmd τ true false _ hobs2]
    simp only [hval2B, if_true]
    rfl
  · -- replay returns the recorded non-zero code
    have hval2B : IsValid (NewCommandCache cacheDir cmd τ)
        (FS.set ((RunCached cacheDir w1 cmd τ true false fs).fsOf)
          (filepathJoin cacheDir (GenerateCommandHash cmd ++ ".pid"))
          ⟨goItoa w2.myPid, w2.now, true⟩) w2.now = true := by
      rw [IsValid_set_ne]
      · unfold IsValid statMod
        rw [h6]
        simp only [hTO]
        simpa using hwin
      · rw [hOC]
        exact hdp
    rw [run_eq_acquired cacheDir w2 cmd τ true false _ hobs2]
    simp only [hval2B, if_true, RunResult.codeOf, Option.some.injEq]
    rw [hB]
    simp [RunResult.fsOf, readFileOrDefault, FS.set, FS.remove, hEX, hep, atoiOrZero_goItoa]
  · -- replay streams the cached output
    have hval2B : IsValid (NewCommandCache cacheDir cmd τ)
        (FS.set ((RunCached cacheDir w1 cmd τ true false fs).fsOf)
          (filepathJoin cacheDir (GenerateCommandHash cmd ++ ".pid"))
          ⟨goItoa w2.myPid, w2.now, true⟩) w2.now = true := by
      rw [IsValid_set_ne]
      · unfold IsValid statMod
        rw [h6]
        simp only [hTO]
        simpa using hwin
      · rw [hOC]
        exact hdp
    rw [run_eq_acquired cacheDir w2 cmd τ true false _ hobs2]
    simp only [hval2B, if_true, RunResult.effOf]
    rw [hB]
    simp [readFileOrDefault, RunResult.fsOf, hOC, FS.set, FS.remove, hdp, hde]


/-- Witness for C6 at the command `["f"]` with a child exiting 3. -/
theorem c6_error_caching_policy_witness :
    ConstructBashCommand ["f"] = .ok "f" ∧ (3 : Int) ≠ 0 ∧
    IsValid (NewCommandCache "/tmp" ["f"] 20) emptyFS 0 = false ∧
    ((RunCached "/tmp" ⟨fun _ => none, fun _ => true, 11, 0, ⟨"boom\n", "", .exited 3⟩⟩
        ["f"] 20 false false emptyFS).codeOf = some 3 ∧
      (RunCached "/tmp" ⟨fun _ => none, fun _ => true, 11, 0, ⟨"boom\n", "", .exited 3⟩⟩
        ["f"] 20 false false emptyFS).effOf.executed = true ∧
      (RunCached "/tmp" ⟨fun _ => none, fun _ => true, 11, 0, ⟨"boom\n", "", .exited 3⟩⟩
        ["f"] 20 false false emptyFS).fsOf
        (NewCommandCache "/tmp" ["f"] 20).OutputCache = none ∧
      (RunCached "/tmp" ⟨fun _ => none, fun _ => true, 12, 0, ⟨"", "", .exited 0⟩⟩
        ["f"] 20 false false
        (RunCached "/tmp" ⟨fun _ => none, fun _ => true, 11, 0, ⟨"boom\n", "", .exited 3⟩⟩
          ["f"] 20 false false emptyFS).fsOf).effOf.executed = true ∧
      (RunCached "/tmp" ⟨fun _ => none, fun _ => true, 11, 0, ⟨"boom\n", "", .exited 3⟩⟩
        ["f"] 20 true false emptyFS).codeOf = some 3 ∧
      (RunCached "/tmp" ⟨fun _ => none, fun _ => true, 11, 0, ⟨"boom\n", "", .exited 3⟩⟩
        ["f"] 20 true false emptyFS).fsOf
        (NewCommandCache "/tmp" ["f"] 20).OutputCache
        = some ⟨"boom\n", 0, true⟩ ∧
      (RunCached "/tmp" ⟨fun _ => none, fun _ => true, 12, 0, ⟨"", "", .exited 0⟩⟩
        ["f"] 20 true false
        (RunCached "/tmp" ⟨fun _ => none, fun _ => true, 11, 0, ⟨"boom\n", "", .exited 3⟩⟩
          ["f"] 20 true false emptyFS).fsOf).effOf.executed = false ∧
      (RunCached "/tmp" ⟨fun _ => none, fun _ => true, 12, 0, ⟨"", "", .exited 0⟩⟩
        ["f"] 20 true false
        (RunCached "/tmp" ⟨fun _ => none, fun _ => true, 11, 0, ⟨"boom\n", "", .exited 3⟩⟩
          ["f"] 20 true false emptyFS).fsOf).codeOf = some 3 ∧
      (RunCached "/tmp" ⟨fun _ => none, fun _ => true, 12, 0, ⟨"", "", .exited 0⟩⟩
        ["f"] 20 true false
        (RunCached "/tmp" ⟨fun _ => none, fun _ => true, 11, 0, ⟨"boom\n", "", .exited 3⟩⟩
          ["f"] 20 true false emptyFS).fsOf).effOf.stdoutOut = "boom\n") :=
  ⟨rfl, by decide, by decide,
    c6_error_caching_policy "/tmp"
      ⟨fun _ => none, fun _ => true, 11, 0, ⟨"boom\n", "", .exited 3⟩⟩
      ⟨fun _ => none, fun _ => true, 12, 0, ⟨"", "", .exited 0⟩⟩
      ["f"] 20 emptyFS "f" 3 rfl rfl (by decide) rfl rfl (by decide) (by simp)⟩

end Runcached
